import Mathlib

/-!
Verification development for the Cisco ACI fault-analysis tool.

The repository ships a React/TypeScript frontend (`FabricComparison.tsx`,
`FabricUploader.tsx`, `FaultAnalysis.tsx`, `FabricList.tsx`, `App.tsx`) plus
the API client module declaring the `FaultSummary` and `ComparisonResult`
interfaces.  The backend fault-analysis engine (normalizer, identity
resolver, lifecycle tracker, summary aggregator, comparison engine) is
specified in the design document but its Python source is not part of the
checked-in tree, so those components are modelled here directly from the
specification text and clearly marked as such.

All embeddings are executable: timestamps are naturals (epoch seconds,
day = seconds / 86400), string maps are association lists, and React
component handlers are pure state-transition functions returning the new
state together with the effect they emit (toast or network request).
-/

namespace AciTool

/-! ## Interface shapes, from the API client module (`src/unnamed/part_000`) -/

/-- One entry of `top_affected_objects`: `{ object: string; fault_count: number }`. -/
structure TopAffectedEntry where
  object : String
  fault_count : Nat
deriving DecidableEq

/-- One entry of `fault_timeline`:
`{ date: string; count: number; severities: Record<string, number> }`. -/
structure TimelinePoint where
  date : String
  count : Nat
  severities : List (String × Nat)
deriving DecidableEq

/-- The `FaultSummary` interface of the API client, field for field. -/
structure FaultSummary where
  fabric_id : String
  fabric_name : String
  total_faults : Nat
  active_faults : Nat
  cleared_faults : Nat
  critical_faults : Nat
  major_faults : Nat
  minor_faults : Nat
  warning_faults : Nat
  fault_categories : List (String × Nat)
  top_affected_objects : List TopAffectedEntry
  fault_timeline : List TimelinePoint
  analysis_timestamp : String
deriving DecidableEq

/-- The fault-instance representation the presentation layer reads from
`common_faults` and `unique_faults` entries: `fault.type`, `fault.description`
(optional) and `fault.severity`, exactly the fields `FabricComparison.tsx`
accesses on the otherwise untyped (`any`) elements. -/
structure FaultView where
  type : String
  description : Option String
  severity : String
deriving DecidableEq

/-- The `ComparisonResult` interface of the API client, field for field. -/
structure ComparisonResult where
  fabric_names : List String
  common_faults : List FaultView
  unique_faults : List (String × List FaultView)
  severity_comparison : List (String × List (String × Nat))
  recommendations : List String
deriving DecidableEq

/-! ### The same shapes as the specification section 6 words them -/

/-- The `FaultSummary` shape exactly as listed in specification section 6
(external interfaces), written independently from the code so the two can be
compared field for field. -/
structure FaultSummarySpec where
  fabric_id : String
  fabric_name : String
  total_faults : Nat
  active_faults : Nat
  cleared_faults : Nat
  critical_faults : Nat
  major_faults : Nat
  minor_faults : Nat
  warning_faults : Nat
  fault_categories : List (String × Nat)
  top_affected_objects : List TopAffectedEntry
  fault_timeline : List TimelinePoint
  analysis_timestamp : String
deriving DecidableEq

/-- The `ComparisonResult` shape exactly as listed in specification
section 6: `fabric_names` (ordered), `common_faults`, `unique_faults`,
`severity_comparison`, `recommendations`. -/
structure ComparisonResultSpec where
  fabric_names : List String
  common_faults : List FaultView
  unique_faults : List (String × List FaultView)
  severity_comparison : List (String × List (String × Nat))
  recommendations : List String
deriving DecidableEq

/-- Field-for-field translation of the code's `FaultSummary` into the
spec-worded shape. -/
def FaultSummary.toSpec (s : FaultSummary) : FaultSummarySpec :=
  ⟨s.fabric_id, s.fabric_name, s.total_faults, s.active_faults, s.cleared_faults,
   s.critical_faults, s.major_faults, s.minor_faults, s.warning_faults,
   s.fault_categories, s.top_affected_objects, s.fault_timeline, s.analysis_timestamp⟩

/-- Field-for-field translation of the spec-worded shape back into the
code's `FaultSummary`. -/
def FaultSummarySpec.toCode (s : FaultSummarySpec) : FaultSummary :=
  ⟨s.fabric_id, s.fabric_name, s.total_faults, s.active_faults, s.cleared_faults,
   s.critical_faults, s.major_faults, s.minor_faults, s.warning_faults,
   s.fault_categories, s.top_affected_objects, s.fault_timeline, s.analysis_timestamp⟩

/-- Field-for-field translation of the code's `ComparisonResult` into the
spec-worded shape. -/
def ComparisonResult.toSpec (c : ComparisonResult) : ComparisonResultSpec :=
  ⟨c.fabric_names, c.common_faults, c.unique_faults, c.severity_comparison,
   c.recommendations⟩

/-- Field-for-field translation of the spec-worded shape back into the
code's `ComparisonResult`. -/
def ComparisonResultSpec.toCode (c : ComparisonResultSpec) : ComparisonResult :=
  ⟨c.fabric_names, c.common_faults, c.unique_faults, c.severity_comparison,
   c.recommendations⟩

/-! ## FabricComparison component (`src/frontend/src/components/FabricComparison.tsx`) -/

/-- React state of `FabricComparison`: the `selectedFabrics` id list and the
currently displayed `comparisonResult` (null before any successful compare). -/
structure CompareState where
  selectedFabrics : List String
  comparisonResult : Option ComparisonResult
deriving DecidableEq

/-- Effect emitted by a `FabricComparison` handler: a destructive toast
(title, message) or a comparison request carrying the fabric ids
(`compareMutation.mutate(selectedFabrics)`). -/
inductive CompareEffect where
  | toastError (title message : String)
  | mutate (fabricIds : List String)
deriving DecidableEq

/-- The `handleCompare` click handler: if fewer than 2 fabrics are selected
it shows the "Insufficient Selection" destructive toast and returns without
mutating; otherwise it issues the comparison request.  It never updates the
component state itself (the displayed result only changes in the mutation's
`onSuccess` callback). -/
def handleCompare (s : CompareState) : CompareState × CompareEffect :=
  if s.selectedFabrics.length < 2 then
    (s, .toastError "Insufficient Selection" "Please select at least 2 fabrics to compare")
  else
    (s, .mutate s.selectedFabrics)

/-- The compare button's `disabled` condition:
`selectedFabrics.length < 2 || compareMutation.isPending`. -/
def compareDisabled (s : CompareState) (isPending : Bool) : Bool :=
  decide (s.selectedFabrics.length < 2) || isPending

/-- The `handleFabricToggle` handler: remove the id from the selection when
present, append it otherwise
(`prev.includes(id) ? prev.filter(x => x !== id) : [...prev, id]`). -/
def handleFabricToggle (fabricId : String) (prev : List String) : List String :=
  if fabricId ∈ prev then
    prev.filter (fun x => x ≠ fabricId)
  else
    prev ++ [fabricId]

/-! ## FabricUploader component (`src/frontend/src/components/FabricUploader.tsx`) -/

/-- The data of one selected browser `File` that the uploader consults:
its name, its MIME type and its size in bytes. -/
structure FileDesc where
  name : String
  mimeType : String
  size : Nat
deriving DecidableEq

/-- The predicate `onDrop` filters with:
`file.type === 'application/json' || file.name.endsWith('.json')`. -/
def isJsonFile (f : FileDesc) : Bool :=
  f.mimeType == "application/json" || f.name.endsWith ".json"

/-- The `onDrop` callback: keep only the JSON files among the dropped ones,
append them after the previously selected files, and report whether a
non-JSON file was dropped (which triggers the "Invalid Files" toast). -/
def onDrop (prev accepted : List FileDesc) : List FileDesc × Bool :=
  let jsonFiles := accepted.filter isJsonFile
  (prev ++ jsonFiles, jsonFiles.length ≠ accepted.length)

/-- The `removeFile` handler: `prev.filter((_, i) => i !== index)`, i.e.
drop exactly the element at the given position. -/
def removeFile (files : List FileDesc) (index : Nat) : List FileDesc :=
  ((files.enum.filter (fun p => p.1 ≠ index)).map (fun p => p.2))

/-- React state of `FabricUploader`: the fabric-name input, the selected
file list and the progress bar value. -/
structure UploadState where
  fabricName : String
  files : List FileDesc
  uploadProgress : Nat
deriving DecidableEq

/-- Effect emitted by `handleUpload`: a destructive toast (title, message)
or the upload request `uploadMutation.mutate({ name, files })`. -/
inductive UploadEffect where
  | toastError (title message : String)
  | upload (name : String) (files : List FileDesc)
deriving DecidableEq

/-- The `handleUpload` click handler: reject with a toast when the trimmed
fabric name is empty (`!fabricName.trim()`), then when no file is selected
(`files.length === 0`); otherwise submit the trimmed name with the files.
The handler body performs no state update in any branch. -/
def handleUpload (s : UploadState) : UploadState × UploadEffect :=
  if s.fabricName.trim = "" then
    (s, .toastError "Missing Fabric Name" "Please enter a name for the fabric")
  else if s.files.length = 0 then
    (s, .toastError "No Files Selected" "Please select at least one JSON file to upload")
  else
    (s, .upload s.fabricName.trim s.files)

/-! ## Engine model

The backend fault-analysis engine is not part of the checked-in source
tree (only its frontend callers are), so the following definitions are
modelled from the specification text, sections 3 and 4. -/

/-- Modelled from the spec: `severity` is one of {critical, major, minor,
warning} (section 3, FaultRecord). -/
inductive Severity where
  | critical
  | major
  | minor
  | warning
deriving DecidableEq

/-- Modelled from the spec: the canonical key
`(normalizedObjectPath, code, faultType)` computed by the Fault Identity
Resolver (section 4.2). -/
structure CanonicalKey where
  normalizedObjectPath : String
  code : String
  faultType : String
deriving DecidableEq

/-- Modelled from the spec: a post-normalization FaultRecord (section 3);
timestamps are epoch-style naturals, `clearedAt` is optional and its
presence implies the record is cleared. -/
structure FaultRecord where
  datasetId : String
  objectPath : String
  code : String
  faultType : String
  severity : Severity
  description : Option String
  raisedAt : Nat
  clearedAt : Option Nat
deriving DecidableEq

/-- Modelled from the spec: the Identity Resolver key of a record
(section 4.2), built from the normalized path, the code and the type. -/
def canonicalKey (r : FaultRecord) : CanonicalKey :=
  ⟨r.objectPath, r.code, r.faultType⟩

/-- Modelled from the spec: the derived lifecycle status (section 3):
a record or instance without `clearedAt` is active. -/
inductive FaultStatus where
  | active
  | cleared
deriving DecidableEq

/-- Modelled from the spec: a FaultInstance (section 3), the
lifecycle-merged representation of all observations sharing a canonical
key within one dataset. -/
structure FaultInstance where
  key : CanonicalKey
  severity : Severity
  raisedAt : Nat
  clearedAt : Option Nat
  observationCount : Nat
deriving DecidableEq

/-- Modelled from the spec: final status of an instance, cleared exactly
when a `clearedAt` is present (section 3). -/
def FaultInstance.status (i : FaultInstance) : FaultStatus :=
  if i.clearedAt.isSome then .cleared else .active

/-! ### Record Normalizer (spec section 4.1) -/

/-- Modelled from the spec: a raw decoded record, a loosely-typed field
map in which every field may be missing (section 4.1). -/
structure RawRecord where
  objectPath : Option String
  code : Option String
  faultType : Option String
  severity : Option String
  description : Option String
  raisedAt : Option Nat
  clearedAt : Option Nat
deriving DecidableEq

/-- Modelled from the spec: ingestion diagnostics, the running count of
rejected records and the `unrecognizedSeverity` counter (section 4.1). -/
structure Diagnostics where
  rejected : Nat
  unrecognizedSeverity : Nat
deriving DecidableEq

/-- Modelled from the spec: case-insensitive severity mapping against
{critical, major, minor, warning}; anything else maps to `warning`
together with a raised unrecognized-severity flag (section 4.1). -/
def mapSeverity (s : String) : Severity × Bool :=
  let t := s.toLower
  if t = "critical" then (.critical, false)
  else if t = "major" then (.major, false)
  else if t = "minor" then (.minor, false)
  else if t = "warning" then (.warning, false)
  else (.warning, true)

/-- Modelled from the spec: the Record Normalizer (section 4.1).  Object
path, fault code and raised timestamp are required; a record missing any
of them is rejected and counted.  Otherwise the record is accepted with
its severity mapped case-insensitively, incrementing the
`unrecognizedSeverity` counter when the value was not recognized. -/
def normalizeRecord (datasetId : String) (raw : RawRecord) (diag : Diagnostics) :
    Option FaultRecord × Diagnostics :=
  match raw.objectPath, raw.code, raw.raisedAt with
  | some path, some code, some raised =>
    let sf := mapSeverity (raw.severity.getD "")
    (some { datasetId := datasetId, objectPath := path, code := code,
            faultType := raw.faultType.getD "", severity := sf.1,
            description := raw.description, raisedAt := raised,
            clearedAt := raw.clearedAt },
     { diag with unrecognizedSeverity := diag.unrecognizedSeverity + (if sf.2 then 1 else 0) })
  | _, _, _ => (none, { diag with rejected := diag.rejected + 1 })

/-! ### Lifecycle Tracker (spec section 4.3) -/

/-- Modelled from the spec: the observation with the maximum `raisedAt`
within a group; on equal timestamps the later observation wins, so the
most recent observation determines the current status (section 4.3). -/
def mostRecent (r : FaultRecord) (rs : List FaultRecord) : FaultRecord :=
  rs.foldl (fun best x => if best.raisedAt ≤ x.raisedAt then x else best) r

/-- Modelled from the spec: merge one non-empty canonical-key group (head
`r`, tail `rs`) into a single FaultInstance: earliest `raisedAt`,
`clearedAt` of the most recent observation, observation count = group
size (section 4.3). -/
def resolveGroup (r : FaultRecord) (rs : List FaultRecord) : FaultInstance :=
  { key := canonicalKey r
    severity := (mostRecent r rs).severity
    raisedAt := rs.foldl (fun m x => min m x.raisedAt) r.raisedAt
    clearedAt := (mostRecent r rs).clearedAt
    observationCount := rs.length + 1 }

/-! ### Summary Aggregator (spec section 4.4) -/

/-- Modelled from the spec: total fault count of a dataset, the instance
count (section 4.4). -/
def totalFaults (insts : List FaultInstance) : Nat := insts.length

/-- Modelled from the spec: active faults, the instances whose lifecycle
has no `clearedAt` (sections 3 and 4.4). -/
def activeFaults (insts : List FaultInstance) : Nat :=
  insts.countP (fun i => i.clearedAt.isNone)

/-- Modelled from the spec: cleared faults, the instances whose lifecycle
carries a `clearedAt` (sections 3 and 4.4). -/
def clearedFaults (insts : List FaultInstance) : Nat :=
  insts.countP (fun i => i.clearedAt.isSome)

/-- Modelled from the spec: per-severity instance count (section 4.4). -/
def severityCount (s : Severity) (insts : List FaultInstance) : Nat :=
  insts.countP (fun i => i.severity = s)

/-- Modelled from the spec: category breakdown, grouping instances by
`faultType` and counting each group (section 4.4). -/
def faultCategories (insts : List FaultInstance) : List (String × Nat) :=
  ((insts.map (fun i => i.key.faultType)).dedup).map
    (fun t => (t, insts.countP (fun i => i.key.faultType = t)))

/-- Modelled from the spec: the normalized object path an instance is
ranked under (section 4.4). -/
def pathOf (i : FaultInstance) : String := i.key.normalizedObjectPath

/-- Modelled from the spec: instance count of one object path
(section 4.4, top-affected-objects grouping). -/
def pathCount (insts : List FaultInstance) (p : String) : Nat :=
  insts.countP (fun i => pathOf i = p)

/-- Modelled from the spec: most recent `raisedAt` among the instances of
one object path, the tie-break key of the ranking (section 4.4). -/
def pathLastRaised (insts : List FaultInstance) (p : String) : Nat :=
  ((insts.filter (fun i => pathOf i = p)).map (fun i => i.raisedAt)).foldr max 0

/-- Modelled from the spec: the top-affected-objects ordering — count
descending, then most recent `raisedAt` descending, then path ascending
for full determinism (section 4.4). -/
def topAffectedLe (insts : List FaultInstance) (p q : String) : Bool :=
  decide (pathCount insts q < pathCount insts p ∨
    (pathCount insts q = pathCount insts p ∧
      pathLastRaised insts q < pathLastRaised insts p) ∨
    (pathCount insts q = pathCount insts p ∧
      pathLastRaised insts q = pathLastRaised insts p ∧ p ≤ q))

/-- Modelled from the spec: the distinct affected object paths, ranked by
the deterministic ordering of section 4.4. -/
def topAffectedKeys (insts : List FaultInstance) : List String :=
  ((insts.map pathOf).dedup).mergeSort (topAffectedLe insts)

/-- Modelled from the spec: the ranked top-affected-objects list of the
FaultSummary (section 4.4). -/
def topAffectedObjects (insts : List FaultInstance) : List TopAffectedEntry :=
  (topAffectedKeys insts).map (fun p => ⟨p, pathCount insts p⟩)

/-- Modelled from the spec: the UTC calendar-day bucket of an instance,
the day number of its `raisedAt` (section 4.4, timeline). -/
def dayOf (i : FaultInstance) : Nat := i.raisedAt / 86400

/-- Modelled from the spec: the distinct non-empty day buckets in
ascending date order; empty days are omitted (section 4.4). -/
def timelineDays (insts : List FaultInstance) : List Nat :=
  ((insts.map dayOf).dedup).mergeSort (fun a b => a ≤ b)

/-- Modelled from the spec: one timeline bucket with its total count and
per-severity sub-counts (section 4.4). -/
def timelineBucket (insts : List FaultInstance) (d : Nat) : TimelinePoint :=
  { date := toString d
    count := insts.countP (fun i => dayOf i = d)
    severities := [
      ("critical", insts.countP (fun i => dayOf i = d ∧ i.severity = .critical)),
      ("major", insts.countP (fun i => dayOf i = d ∧ i.severity = .major)),
      ("minor", insts.countP (fun i => dayOf i = d ∧ i.severity = .minor)),
      ("warning", insts.countP (fun i => dayOf i = d ∧ i.severity = .warning))] }

/-- Modelled from the spec: the sparse day-bucket timeline of the
FaultSummary, emitted in ascending date order (section 4.4). -/
def faultTimeline (insts : List FaultInstance) : List TimelinePoint :=
  (timelineDays insts).map (timelineBucket insts)

/-- Modelled from the spec: the Summary Aggregator (section 4.4),
assembling the FaultSummary interface object for one dataset. -/
def summarize (fabricId fabricName analysisTimestamp : String)
    (insts : List FaultInstance) : FaultSummary :=
  { fabric_id := fabricId
    fabric_name := fabricName
    total_faults := totalFaults insts
    active_faults := activeFaults insts
    cleared_faults := clearedFaults insts
    critical_faults := severityCount .critical insts
    major_faults := severityCount .major insts
    minor_faults := severityCount .minor insts
    warning_faults := severityCount .warning insts
    fault_categories := faultCategories insts
    top_affected_objects := topAffectedObjects insts
    fault_timeline := faultTimeline insts
    analysis_timestamp := analysisTimestamp }

/-! ### Comparison Engine (spec section 4.5) -/

/-- Modelled from the spec: one selected dataset for comparison, its
display name paired with its FaultInstance set (section 4.5). -/
abbrev Dataset := String × List FaultInstance

/-- Modelled from the spec: a dataset's canonical key set, derived from
its FaultInstance set (section 4.5, step 1). -/
def keysOf (d : Dataset) : List CanonicalKey := d.2.map (fun i => i.key)

/-- Modelled from the spec: key-set membership test of one dataset
(section 4.5, step 1). -/
def containsKey (d : Dataset) (k : CanonicalKey) : Bool := decide (k ∈ keysOf d)

/-- Modelled from the spec: common faults, the canonical keys present in
every selected dataset (section 4.5, step 2). -/
def commonKeys (ds : List Dataset) : List CanonicalKey :=
  match ds with
  | [] => []
  | d :: rest => ((keysOf d).dedup).filter (fun k => rest.all (fun d2 => containsKey d2 k))

/-- Modelled from the spec: unique faults of the dataset at position `i`,
the keys present only in that dataset among the selection (section 4.5,
step 3). -/
def uniqueKeysAt (ds : List Dataset) (i : Nat) : List CanonicalKey :=
  match ds[i]? with
  | none => []
  | some d => ((keysOf d).dedup).filter (fun k =>
      ds.enum.all (fun p => p.1 = i || !(containsKey p.2 k)))

/-- Modelled from the spec: the comparison call-level error taxonomy
(section 7): fewer than 2 datasets is `InsufficientSelection`. -/
inductive ComparisonError where
  | insufficientSelection
deriving DecidableEq

/-- Modelled from the spec: the Comparison Engine entry point
(section 4.5): fewer than 2 datasets fails with `InsufficientSelection`
and no partial result; otherwise the common keys and each dataset's
unique keys are computed. -/
def compareDatasets (ds : List Dataset) :
    Except ComparisonError (List CanonicalKey × List (String × List CanonicalKey)) :=
  if ds.length < 2 then
    .error .insufficientSelection
  else
    .ok (commonKeys ds, ds.enum.map (fun p => (p.2.1, uniqueKeysAt ds p.1)))

/-! ## Helper lemmas -/

/-- Filtering away an absent id is the identity. -/
lemma filter_ne_of_not_mem {fabricId : String} {l : List String} (h : fabricId ∉ l) :
    l.filter (fun x => x ≠ fabricId) = l := by
  apply List.filter_eq_self.mpr
  intro x hx
  simp only [ne_eq, decide_eq_true_eq]
  intro hEq
  exact h (hEq ▸ hx)

/-- On a duplicate-free list containing the id, removing the id and then
appending it is a permutation of the original list. -/
lemma filter_ne_append_perm {fabricId : String} :
    ∀ {l : List String}, l.Nodup → fabricId ∈ l →
      (l.filter (fun x => x ≠ fabricId) ++ [fabricId]).Perm l := by
  intro l
  induction l with
  | nil => intro _ hm; cases hm
  | cons a l ih =>
    intro hnd hm
    by_cases ha : a = fabricId
    · subst ha
      have hnl : a ∉ l := (List.nodup_cons.mp hnd).1
      have hda : (decide (a ≠ a)) = false := by simp
      rw [List.filter_cons, hda]
      simp only [Bool.false_eq_true, if_false]
      rw [filter_ne_of_not_mem hnl]
      exact List.perm_append_singleton a l
    · have hml : fabricId ∈ l := by
        rcases List.mem_cons.mp hm with h | h
        · exact absurd h.symm ha
        · exact h
      have hda : (decide (a ≠ fabricId)) = true := by simp [ha]
      rw [List.filter_cons, hda]
      simp only [if_true]
      exact (ih (List.nodup_cons.mp hnd).2 hml).cons a

/-- Positional filtering with an index below every index of the enumeration
keeps every element. -/
lemma enumFrom_filter_lt_map_snd {α : Type} :
    ∀ (l : List α) (n m : Nat), m < n →
      ((l.enumFrom n).filter (fun p => p.1 ≠ m)).map (fun p => p.2) = l := by
  intro l
  induction l with
  | nil => intros; rfl
  | cons a l ih =>
    intro n m hm
    have hne : (decide (n ≠ m)) = true := by simp; omega
    rw [List.enumFrom, List.filter_cons, hne]
    simp only [if_true, List.map_cons]
    rw [ih (n + 1) m (by omega)]

/-- Positional filtering of an enumeration deletes exactly the element at
the filtered-out absolute position. -/
lemma enumFrom_filter_ne_eraseIdx {α : Type} :
    ∀ (l : List α) (n i : Nat),
      ((l.enumFrom n).filter (fun p => p.1 ≠ n + i)).map (fun p => p.2) = l.eraseIdx i := by
  intro l
  induction l with
  | nil => intros; rfl
  | cons a l ih =>
    intro n i
    cases i with
    | zero =>
      have h0 : (decide (n ≠ n + 0)) = false := by simp
      rw [List.enumFrom, List.filter_cons, h0]
      simp only [Bool.false_eq_true, if_false, List.eraseIdx]
      exact enumFrom_filter_lt_map_snd l (n + 1) (n + 0) (by omega)
    | succ i =>
      have h1 : (decide (n ≠ n + (i + 1))) = true := by simp
      rw [List.enumFrom, List.filter_cons, h1]
      simp only [if_true, List.map_cons, List.eraseIdx]
      have harith : n + (i + 1) = (n + 1) + i := by omega
      rw [harith, ih (n + 1) i]

/-! ### Helper lemmas for the lifecycle tracker -/

/-- The folded minimum is a lower bound of its seed and of every list
element's `raisedAt`. -/
lemma foldl_min_le (rs : List FaultRecord) : ∀ a : Nat,
    rs.foldl (fun m x => min m x.raisedAt) a ≤ a ∧
    ∀ x ∈ rs, rs.foldl (fun m x => min m x.raisedAt) a ≤ x.raisedAt := by
  induction rs with
  | nil =>
    intro a
    exact ⟨le_refl a, by intro x hx; cases hx⟩
  | cons y rs ih =>
    intro a
    simp only [List.foldl_cons]
    obtain ⟨h1, h2⟩ := ih (min a y.raisedAt)
    refine ⟨le_trans h1 (Nat.min_le_left _ _), ?_⟩
    intro x hx
    rcases List.mem_cons.mp hx with rfl | hx
    · exact le_trans h1 (Nat.min_le_right _ _)
    · exact h2 x hx

/-- The folded minimum is the seed or one of the elements' `raisedAt`. -/
lemma foldl_min_mem (rs : List FaultRecord) : ∀ a : Nat,
    rs.foldl (fun m x => min m x.raisedAt) a = a ∨
    ∃ x ∈ rs, rs.foldl (fun m x => min m x.raisedAt) a = x.raisedAt := by
  induction rs with
  | nil =>
    intro a
    exact Or.inl rfl
  | cons y rs ih =>
    intro a
    simp only [List.foldl_cons]
    rcases ih (min a y.raisedAt) with h | ⟨x, hx, h⟩
    · rcases Nat.le_total a y.raisedAt with hle | hle
      · exact Or.inl (by rw [h]; exact Nat.min_eq_left hle)
      · exact Or.inr ⟨y, List.mem_cons_self y rs, by rw [h]; exact Nat.min_eq_right hle⟩
    · exact Or.inr ⟨x, List.mem_cons_of_mem y hx, h⟩

/-- `mostRecent` returns a group member whose `raisedAt` bounds the whole
group from above. -/
lemma mostRecent_spec (rs : List FaultRecord) : ∀ r : FaultRecord,
    (mostRecent r rs ∈ r :: rs) ∧
    r.raisedAt ≤ (mostRecent r rs).raisedAt ∧
    ∀ x ∈ rs, x.raisedAt ≤ (mostRecent r rs).raisedAt := by
  induction rs with
  | nil =>
    intro r
    exact ⟨List.mem_cons_self r [], le_refl _, by intro x hx; cases hx⟩
  | cons y rs ih =>
    intro r
    have hstep : mostRecent r (y :: rs) =
        mostRecent (if r.raisedAt ≤ y.raisedAt then y else r) rs := rfl
    by_cases h : r.raisedAt ≤ y.raisedAt
    · rw [hstep, if_pos h]
      obtain ⟨hm, hle, hall⟩ := ih y
      refine ⟨?_, le_trans h hle, ?_⟩
      · rcases List.mem_cons.mp hm with h' | h'
        · rw [h']
          exact List.mem_cons_of_mem r (List.mem_cons_self y rs)
        · exact List.mem_cons_of_mem r (List.mem_cons_of_mem y h')
      · intro x hx
        rcases List.mem_cons.mp hx with rfl | hx
        · exact hle
        · exact hall x hx
    · rw [hstep, if_neg h]
      obtain ⟨hm, hle, hall⟩ := ih r
      refine ⟨?_, hle, ?_⟩
      · rcases List.mem_cons.mp hm with h' | h'
        · rw [h']
          exact List.mem_cons_self r (y :: rs)
        · exact List.mem_cons_of_mem r (List.mem_cons_of_mem y h')
      · intro x hx
        rcases List.mem_cons.mp hx with rfl | hx
        · exact le_trans (Nat.le_of_not_le h) hle
        · exact hall x hx

/-! ### Helper lemmas for summarization determinism (C5) -/

/-- The ranking relation is transitive. -/
lemma topAffectedLe_trans (insts : List FaultInstance) (a b c : String)
    (hab : topAffectedLe insts a b = true) (hbc : topAffectedLe insts b c = true) :
    topAffectedLe insts a c = true := by
  simp only [topAffectedLe, decide_eq_true_eq] at hab hbc ⊢
  rcases hab with h | ⟨h1, h2⟩ | ⟨h1, h2, h3⟩ <;>
    rcases hbc with g | ⟨g1, g2⟩ | ⟨g1, g2, g3⟩ <;>
      first
        | exact Or.inl (by omega)
        | exact Or.inr (Or.inl ⟨by omega, by omega⟩)
        | exact Or.inr (Or.inr ⟨by omega, by omega, le_trans h3 g3⟩)

/-- The ranking relation is total. -/
lemma topAffectedLe_total (insts : List FaultInstance) (a b : String) :
    (topAffectedLe insts a b || topAffectedLe insts b a) = true := by
  simp only [topAffectedLe, Bool.or_eq_true, decide_eq_true_eq]
  rcases Nat.lt_trichotomy (pathCount insts a) (pathCount insts b) with h | h | h
  · exact Or.inr (Or.inl h)
  · rcases Nat.lt_trichotomy (pathLastRaised insts a) (pathLastRaised insts b) with g | g | g
    · exact Or.inr (Or.inr (Or.inl ⟨by omega, g⟩))
    · rcases le_total a b with hs | hs
      · exact Or.inl (Or.inr (Or.inr ⟨by omega, by omega, hs⟩))
      · exact Or.inr (Or.inr (Or.inr ⟨by omega, by omega, hs⟩))
    · exact Or.inl (Or.inr (Or.inl ⟨by omega, g⟩))
  · exact Or.inl (Or.inl h)

/-- The ranking relation is antisymmetric. -/
lemma topAffectedLe_antisymm (insts : List FaultInstance) (a b : String)
    (hab : topAffectedLe insts a b = true) (hba : topAffectedLe insts b a = true) :
    a = b := by
  simp only [topAffectedLe, decide_eq_true_eq] at hab hba
  rcases hab with h | ⟨h1, h2⟩ | ⟨h1, h2, h3⟩ <;>
    rcases hba with g | ⟨g1, g2⟩ | ⟨g1, g2, g3⟩ <;>
      first
        | omega
        | exact le_antisymm h3 g3

/-- Folding `max` over a list of naturals is invariant under
permutation. -/
lemma foldr_max_perm {l1 l2 : List Nat} (h : l1.Perm l2) :
    ∀ a : Nat, l1.foldr max a = l2.foldr max a := by
  induction h with
  | nil => intro a; rfl
  | cons x _ ih =>
    intro a
    simp only [List.foldr_cons, ih a]
  | swap x y l =>
    intro a
    simp only [List.foldr_cons]
    exact max_left_comm y x _
  | trans _ _ ih1 ih2 =>
    intro a
    rw [ih1 a, ih2 a]

/-- Per-path instance counts are invariant under permutation. -/
lemma pathCount_perm {l1 l2 : List FaultInstance} (h : l1.Perm l2) (p : String) :
    pathCount l1 p = pathCount l2 p := by
  unfold pathCount
  exact List.Perm.countP_eq _ h

/-- Per-path recency keys are invariant under permutation. -/
lemma pathLastRaised_perm {l1 l2 : List FaultInstance} (h : l1.Perm l2) (p : String) :
    pathLastRaised l1 p = pathLastRaised l2 p := by
  unfold pathLastRaised
  exact foldr_max_perm (List.Perm.map _ (List.Perm.filter _ h)) 0

/-- The ranking relation itself is invariant under permutation of the
instance list. -/
lemma topAffectedLe_congr {l1 l2 : List FaultInstance} (h : l1.Perm l2) :
    topAffectedLe l1 = topAffectedLe l2 := by
  funext p q
  unfold topAffectedLe
  rw [pathCount_perm h p, pathCount_perm h q, pathLastRaised_perm h p,
    pathLastRaised_perm h q]

/-- C2: the FaultSummary and ComparisonResult shapes exchanged with the
presentation layer contain exactly the fields the spec lists: the code's
interfaces and the spec's field lists are in field-for-field bijection,
witnessed by mutually inverse translation functions. -/
theorem claim_c2_interface_shapes_match :
    (∀ s : FaultSummary, s.toSpec.toCode = s) ∧
    (∀ s : FaultSummarySpec, s.toCode.toSpec = s) ∧
    (∀ c : ComparisonResult, c.toSpec.toCode = c) ∧
    (∀ c : ComparisonResultSpec, c.toCode.toSpec = c) := by
  refine ⟨fun s => rfl, fun s => rfl, fun c => rfl, fun c => rfl⟩

/-! ## Claim theorems for the frontend components -/

/-- C1: with fewer than 2 selected datasets, `handleCompare` emits the
"Insufficient Selection" destructive toast, issues no comparison request,
constructs no partial result, leaves the displayed comparison state
unchanged, and the compare button is disabled. -/
theorem claim_c1_insufficient_selection (s : CompareState)
    (h : s.selectedFabrics.length < 2) :
    handleCompare s =
      (s, CompareEffect.toastError "Insufficient Selection"
        "Please select at least 2 fabrics to compare") ∧
    (∀ ids, (handleCompare s).2 ≠ CompareEffect.mutate ids) ∧
    (handleCompare s).1.comparisonResult = s.comparisonResult ∧
    (∀ isPending, compareDisabled s isPending = true) := by
  have he : handleCompare s =
      (s, CompareEffect.toastError "Insufficient Selection"
        "Please select at least 2 fabrics to compare") := by
    rw [handleCompare, if_pos h]
  refine ⟨he, ?_, by rw [he], ?_⟩
  · intro ids
    rw [he]
    simp
  · intro isPending
    simp [compareDisabled, h]

/-- Concrete instantiation of C1 at a one-fabric selection. -/
theorem claim_c1_witness :
    handleCompare ⟨["apic1"], none⟩ =
      (⟨["apic1"], none⟩, CompareEffect.toastError "Insufficient Selection"
        "Please select at least 2 fabrics to compare") :=
  (claim_c1_insufficient_selection ⟨["apic1"], none⟩ (by decide)).1

/-- C8: `handleUpload` submits exactly when the trimmed fabric name is
non-empty and at least one file is selected; the submitted name is the
trimmed name with the selected files; otherwise it emits an error toast;
and in every branch the handler leaves the component state unchanged. -/
theorem claim_c8_upload_preconditions (s : UploadState) :
    ((handleUpload s).1 = s) ∧
    ((∃ n fs, (handleUpload s).2 = UploadEffect.upload n fs) ↔
      (s.fabricName.trim ≠ "" ∧ s.files ≠ [])) ∧
    (∀ n fs, (handleUpload s).2 = UploadEffect.upload n fs →
      n = s.fabricName.trim ∧ fs = s.files) ∧
    ((s.fabricName.trim = "" ∨ s.files = []) →
      ∃ t m, (handleUpload s).2 = UploadEffect.toastError t m) := by
  by_cases h1 : s.fabricName.trim = ""
  · refine ⟨by simp [handleUpload, h1], ?_, ?_, ?_⟩
    · constructor
      · rintro ⟨n, fs, hEq⟩
        simp [handleUpload, h1] at hEq
      · rintro ⟨hn, _⟩
        exact absurd h1 hn
    · intro n fs hEq
      simp [handleUpload, h1] at hEq
    · intro _
      exact ⟨"Missing Fabric Name", "Please enter a name for the fabric",
        by simp [handleUpload, h1]⟩
  · by_cases h2 : s.files = []
    · have h2l : s.files.length = 0 := by simp [h2]
      refine ⟨by simp [handleUpload, h1, h2l], ?_, ?_, ?_⟩
      · constructor
        · rintro ⟨n, fs, hEq⟩
          simp [handleUpload, h1, h2l] at hEq
        · rintro ⟨_, hf⟩
          exact absurd h2 hf
      · intro n fs hEq
        simp [handleUpload, h1, h2l] at hEq
      · intro _
        exact ⟨"No Files Selected", "Please select at least one JSON file to upload",
          by simp [handleUpload, h1, h2l]⟩
    · have h2l : ¬ s.files.length = 0 := by
        simpa [List.length_eq_zero] using h2
      have he : handleUpload s = (s, UploadEffect.upload s.fabricName.trim s.files) := by
        rw [handleUpload, if_neg h1, if_neg h2l]
      refine ⟨by rw [he], ?_, ?_, ?_⟩
      · exact ⟨fun _ => ⟨h1, h2⟩, fun _ => ⟨s.fabricName.trim, s.files, by rw [he]⟩⟩
      · intro n fs hEq
        rw [he] at hEq
        injection hEq with hn hf
        exact ⟨hn.symm, hf.symm⟩
      · rintro (hc | hc)
        · exact absurd hc h1
        · exact absurd hc h2

/-- Concrete instantiation of C8: an empty file selection leaves the
uploader state unchanged. -/
theorem claim_c8_witness :
    (handleUpload ⟨"dc1", [], 0⟩).1 = ⟨"dc1", [], 0⟩ :=
  (claim_c8_upload_preconditions ⟨"dc1", [], 0⟩).1

/-- C9 counterexample: toggling an id that sits in the middle of a
duplicate-free selection twice moves it to the end, so the original list is
not restored exactly. -/
theorem claim_c9_counterexample :
    (["a", "b", "c"] : List String).Nodup ∧
    handleFabricToggle "b" (handleFabricToggle "b" ["a", "b", "c"]) ≠ ["a", "b", "c"] := by
  constructor
  · decide
  · decide

/-- C9 (amended): toggling removes a present id and appends an absent one,
preserves freedom from duplicates, and toggling the same id twice restores
the original selection up to order (a permutation with the same members) —
exactly, when the id was not initially selected. -/
theorem claim_c9_toggle_amended (fabricId : String) (l : List String) (hnd : l.Nodup) :
    (fabricId ∈ l → handleFabricToggle fabricId l = l.filter (fun x => x ≠ fabricId)) ∧
    (fabricId ∉ l → handleFabricToggle fabricId l = l ++ [fabricId]) ∧
    (handleFabricToggle fabricId l).Nodup ∧
    (handleFabricToggle fabricId (handleFabricToggle fabricId l)).Perm l ∧
    (fabricId ∉ l → handleFabricToggle fabricId (handleFabricToggle fabricId l) = l) := by
  refine ⟨fun hm => by rw [handleFabricToggle, if_pos hm],
    fun hm => by rw [handleFabricToggle, if_neg hm], ?_, ?_, ?_⟩
  · by_cases hm : fabricId ∈ l
    · rw [handleFabricToggle, if_pos hm]
      exact hnd.filter _
    · rw [handleFabricToggle, if_neg hm]
      simp [List.nodup_append, hnd, hm]
  · by_cases hm : fabricId ∈ l
    · have hinner : handleFabricToggle fabricId l = l.filter (fun x => x ≠ fabricId) := by
        rw [handleFabricToggle, if_pos hm]
      rw [hinner]
      have h2 : fabricId ∉ l.filter (fun x => x ≠ fabricId) := by simp
      rw [handleFabricToggle, if_neg h2]
      exact filter_ne_append_perm hnd hm
    · have hinner : handleFabricToggle fabricId l = l ++ [fabricId] := by
        rw [handleFabricToggle, if_neg hm]
      rw [hinner]
      have h2 : fabricId ∈ l ++ [fabricId] := by simp
      rw [handleFabricToggle, if_pos h2, List.filter_append, filter_ne_of_not_mem hm]
      simp
  · intro hm
    have hinner : handleFabricToggle fabricId l = l ++ [fabricId] := by
      rw [handleFabricToggle, if_neg hm]
    rw [hinner]
    have h2 : fabricId ∈ l ++ [fabricId] := by simp
    rw [handleFabricToggle, if_pos h2, List.filter_append, filter_ne_of_not_mem hm]
    simp

/-- Concrete instantiation of C9 (amended): toggling "b" twice in
`["a", "b", "c"]` yields a permutation of the original selection. -/
theorem claim_c9_witness :
    (handleFabricToggle "b" (handleFabricToggle "b" ["a", "b", "c"])).Perm ["a", "b", "c"] :=
  (claim_c9_toggle_amended "b" ["a", "b", "c"] (by decide)).2.2.2.1

/-- C10: `onDrop` appends exactly the JSON-predicate-satisfying dropped
files after the previously selected ones, warns exactly when a non-JSON
file was dropped, `removeFile` deletes exactly the entry at the given
index, and both operations preserve the all-files-are-JSON invariant. -/
theorem claim_c10_files_invariant (prev accepted files : List FileDesc) (i : Nat) :
    ((onDrop prev accepted).1 = prev ++ accepted.filter isJsonFile) ∧
    (prev.all isJsonFile = true → (onDrop prev accepted).1.all isJsonFile = true) ∧
    ((onDrop prev accepted).2 = true ↔ ∃ f ∈ accepted, isJsonFile f = false) ∧
    (removeFile files i = files.eraseIdx i) ∧
    (files.all isJsonFile = true → (removeFile files i).all isJsonFile = true) := by
  have h4 : removeFile files i = files.eraseIdx i := by
    rw [removeFile]
    have h0 : files.enum = files.enumFrom 0 := rfl
    rw [h0]
    have h := enumFrom_filter_ne_eraseIdx files 0 i
    rwa [Nat.zero_add] at h
  refine ⟨rfl, ?_, ?_, h4, ?_⟩
  · intro hall
    rw [List.all_eq_true] at hall ⊢
    intro f hf
    rcases List.mem_append.mp hf with hp | hj
    · exact hall f hp
    · exact (List.mem_filter.mp hj).2
  · constructor
    · intro hne
      by_contra hno
      push_neg at hno
      have hself : accepted.filter isJsonFile = accepted := by
        apply List.filter_eq_self.mpr
        intro f hf
        have := hno f hf
        revert this
        cases isJsonFile f <;> simp
      rw [onDrop] at hne
      simp only [decide_eq_true_eq] at hne
      exact hne (by rw [hself])
    · rintro ⟨f, hf, hpf⟩
      rw [onDrop]
      simp only [decide_eq_true_eq]
      intro hlen
      have heq : accepted.filter isJsonFile = accepted :=
        (List.filter_sublist accepted).eq_of_length hlen
      have : isJsonFile f = true := (List.mem_filter.mp (heq ▸ hf)).2
      rw [this] at hpf
      cases hpf
  · intro hall
    rw [h4, List.all_eq_true] at *
    intro f hf
    exact hall f ((files.eraseIdx_sublist i).subset hf)

/-- Concrete instantiation of C10: dropping a text file and a JSON file
onto a JSON-only selection keeps the invariant, raises the warning, and
removing index 0 deletes exactly that file. -/
theorem claim_c10_witness :
    (onDrop [⟨"a.json", "application/json", 1⟩]
        [⟨"b.txt", "text/plain", 2⟩, ⟨"c.json", "application/json", 3⟩]).1.all
      isJsonFile = true ∧
    removeFile [⟨"a.json", "application/json", 1⟩, ⟨"c.json", "application/json", 3⟩] 0 =
      [⟨"c.json", "application/json", 3⟩] := by
  constructor
  · exact (claim_c10_files_invariant [⟨"a.json", "application/json", 1⟩]
      [⟨"b.txt", "text/plain", 2⟩, ⟨"c.json", "application/json", 3⟩] [] 0).2.1 (by decide)
  · have h := (claim_c10_files_invariant []
      [] [⟨"a.json", "application/json", 1⟩, ⟨"c.json", "application/json", 3⟩] 0).2.2.2.1
    rw [h]
    rfl

/-! ### Claim theorems for the engine (spec-modelled) -/

/-- C3: in the FaultSummary produced by summarization, active plus cleared
counts equal the total, and the four severity counts also sum to the
total. -/
theorem claim_c3_count_invariants (fabricId fabricName ts : String)
    (insts : List FaultInstance) :
    (summarize fabricId fabricName ts insts).active_faults +
        (summarize fabricId fabricName ts insts).cleared_faults =
      (summarize fabricId fabricName ts insts).total_faults ∧
    (summarize fabricId fabricName ts insts).critical_faults +
        (summarize fabricId fabricName ts insts).major_faults +
        (summarize fabricId fabricName ts insts).minor_faults +
        (summarize fabricId fabricName ts insts).warning_faults =
      (summarize fabricId fabricName ts insts).total_faults := by
  simp only [summarize]
  constructor
  · induction insts with
    | nil => rfl
    | cons i l ih =>
      simp only [activeFaults, clearedFaults, totalFaults, List.countP_cons,
        List.length_cons] at *
      cases h : i.clearedAt <;> simp [h] <;> omega
  · induction insts with
    | nil => rfl
    | cons i l ih =>
      simp only [severityCount, totalFaults, List.countP_cons, List.length_cons] at *
      cases h : i.severity <;> simp [h] <;> omega

/-- C6: lifecycle resolution of a non-empty canonical-key group produces
one instance whose `raisedAt` is the group minimum, whose `clearedAt` is
that of the group's most recent observation (active when that observation
has none), and whose observation count equals the group size; the
2024-01-05 / 2024-01-06 reobservation example resolves to one cleared
instance raised 2024-01-05. -/
theorem claim_c6_lifecycle_resolution (r : FaultRecord) (rs : List FaultRecord) :
    ((resolveGroup r rs).observationCount = (r :: rs).length) ∧
    ((resolveGroup r rs).raisedAt ∈ (r :: rs).map FaultRecord.raisedAt) ∧
    (∀ x ∈ r :: rs, (resolveGroup r rs).raisedAt ≤ x.raisedAt) ∧
    ((resolveGroup r rs).clearedAt = (mostRecent r rs).clearedAt) ∧
    (mostRecent r rs ∈ r :: rs) ∧
    (∀ x ∈ rs, x.raisedAt ≤ (mostRecent r rs).raisedAt) ∧
    ((mostRecent r rs).clearedAt = none → (resolveGroup r rs).status = .active) ∧
    ((resolveGroup r rs).key = canonicalKey r) ∧
    ((resolveGroup
        ⟨"ds1", "sys/node-101", "F0103", "communications", .major, none, 20240105, none⟩
        [⟨"ds1", "sys/node-101", "F0103", "communications", .major, none,
          20240106, some 20240106⟩]).status = .cleared ∧
      (resolveGroup
        ⟨"ds1", "sys/node-101", "F0103", "communications", .major, none, 20240105, none⟩
        [⟨"ds1", "sys/node-101", "F0103", "communications", .major, none,
          20240106, some 20240106⟩]).raisedAt = 20240105 ∧
      (resolveGroup
        ⟨"ds1", "sys/node-101", "F0103", "communications", .major, none, 20240105, none⟩
        [⟨"ds1", "sys/node-101", "F0103", "communications", .major, none,
          20240106, some 20240106⟩]).observationCount = 2) := by
  obtain ⟨hmem, hrle, hrall⟩ := mostRecent_spec rs r
  refine ⟨by simp [resolveGroup], ?_, ?_, rfl, hmem, hrall, ?_, rfl, by decide, by decide, by decide⟩
  · rcases foldl_min_mem rs r.raisedAt with h | ⟨x, hx, h⟩
    · simp only [resolveGroup, h, List.map_cons]
      exact List.mem_cons_self _ _
    · simp only [resolveGroup, h, List.map_cons]
      exact List.mem_cons_of_mem _ (List.mem_map_of_mem FaultRecord.raisedAt hx)
  · intro x hx
    obtain ⟨h1, h2⟩ := foldl_min_le rs r.raisedAt
    rcases List.mem_cons.mp hx with rfl | hx
    · exact h1
    · exact h2 x hx
  · intro h
    simp [resolveGroup, FaultInstance.status, h]

/-- Concrete instantiation of C6: a group whose most recent observation is
uncleared resolves to an active instance. -/
theorem claim_c6_witness :
    (resolveGroup ⟨"ds1", "p", "F1", "t", Severity.minor, none, 100, none⟩
        [⟨"ds1", "p", "F1", "t", Severity.minor, none, 200, none⟩]).status =
      FaultStatus.active :=
  (claim_c6_lifecycle_resolution
    ⟨"ds1", "p", "F1", "t", Severity.minor, none, 100, none⟩
    [⟨"ds1", "p", "F1", "t", Severity.minor, none, 200, none⟩]).2.2.2.2.2.2.1 (by decide)

/-- C7: with the required fields present, normalization never rejects a
record for its severity: the severity string is matched case-insensitively
against {critical, major, minor, warning}, an unrecognized value is mapped
to warning with the `unrecognizedSeverity` counter incremented, and a
recognized value leaves the counter unchanged. -/
theorem claim_c7_severity_normalization (datasetId : String) (raw : RawRecord)
    (diag : Diagnostics) (hp : raw.objectPath.isSome = true)
    (hc : raw.code.isSome = true) (hr : raw.raisedAt.isSome = true) :
    ∃ rec, (normalizeRecord datasetId raw diag).1 = some rec ∧
      (normalizeRecord datasetId raw diag).2.rejected = diag.rejected ∧
      rec.severity = (mapSeverity (raw.severity.getD "")).1 ∧
      ((raw.severity.getD "").toLower = "critical" → rec.severity = Severity.critical) ∧
      ((raw.severity.getD "").toLower = "major" → rec.severity = Severity.major) ∧
      ((raw.severity.getD "").toLower = "minor" → rec.severity = Severity.minor) ∧
      ((raw.severity.getD "").toLower = "warning" → rec.severity = Severity.warning) ∧
      ((raw.severity.getD "").toLower ∈ ["critical", "major", "minor", "warning"] →
        (normalizeRecord datasetId raw diag).2.unrecognizedSeverity =
          diag.unrecognizedSeverity) ∧
      ((raw.severity.getD "").toLower ∉ ["critical", "major", "minor", "warning"] →
        rec.severity = Severity.warning ∧
        (normalizeRecord datasetId raw diag).2.unrecognizedSeverity =
          diag.unrecognizedSeverity + 1) := by
  obtain ⟨p, hp2⟩ := Option.isSome_iff_exists.mp hp
  obtain ⟨c, hc2⟩ := Option.isSome_iff_exists.mp hc
  obtain ⟨t0, hr2⟩ := Option.isSome_iff_exists.mp hr
  have hn : normalizeRecord datasetId raw diag =
      (some { datasetId := datasetId, objectPath := p, code := c,
              faultType := raw.faultType.getD "",
              severity := (mapSeverity (raw.severity.getD "")).1,
              description := raw.description, raisedAt := t0,
              clearedAt := raw.clearedAt },
       { diag with unrecognizedSeverity := diag.unrecognizedSeverity +
           (if (mapSeverity (raw.severity.getD "")).2 then 1 else 0) }) := by
    simp only [normalizeRecord, hp2, hc2, hr2]
  refine ⟨_, by rw [hn], by rw [hn], rfl, ?_, ?_, ?_, ?_, ?_, ?_⟩
  · intro h
    simp [mapSeverity, h]
  · intro h
    simp [mapSeverity, h]
  · intro h
    simp [mapSeverity, h]
  · intro h
    simp [mapSeverity, h]
  · intro h
    rw [hn]
    simp only [List.mem_cons, List.not_mem_nil, or_false] at h
    rcases h with h | h | h | h <;> simp [mapSeverity, h]
  · intro h
    simp only [List.mem_cons, List.not_mem_nil, or_false] at h
    push_neg at h
    obtain ⟨h1, h2, h3, h4⟩ := h
    constructor
    · simp [mapSeverity, h1, h2, h3, h4]
    · rw [hn]
      simp [mapSeverity, h1, h2, h3, h4]

/-- Concrete instantiation of C7 at a record carrying severity
"CRITICAL" with the three required fields present: the record is
accepted. -/
theorem claim_c7_witness :
    (normalizeRecord "ds1"
        ⟨some "sys/n1", some "F0103", some "comm", some "CRITICAL", none, some 5, none⟩
        ⟨0, 0⟩).1.isSome = true := by
  obtain ⟨rec, h1, _⟩ := claim_c7_severity_normalization "ds1"
    ⟨some "sys/n1", some "F0103", some "comm", some "CRITICAL", none, some 5, none⟩
    ⟨0, 0⟩ (by decide) (by decide) (by decide)
  rw [h1]
  rfl

/-- C4: over 2 or more datasets, every common key is in every selected
dataset's key set; every unique key of a dataset is absent from every
other dataset's key set, making the unique sets pairwise disjoint; and a
key shared by a strict subset of the datasets (missing somewhere, present
at two positions) is neither common nor unique anywhere. -/
theorem claim_c4_common_unique_keys (ds : List Dataset) (h2 : 2 ≤ ds.length) :
    (∀ k ∈ commonKeys ds, ∀ d ∈ ds, containsKey d k = true) ∧
    (∀ i, ∀ k ∈ uniqueKeysAt ds i, ∀ j, j ≠ i → ∀ dj, ds[j]? = some dj →
      containsKey dj k = false) ∧
    (∀ i j, i ≠ j → ∀ k, k ∈ uniqueKeysAt ds i → k ∉ uniqueKeysAt ds j) ∧
    (∀ k, (∃ (j : Nat) (dj : Dataset), ds[j]? = some dj ∧ containsKey dj k = false) →
      k ∉ commonKeys ds) ∧
    (∀ (k : CanonicalKey) (i1 i2 : Nat) (d1 d2 : Dataset), i1 ≠ i2 →
      ds[i1]? = some d1 → ds[i2]? = some d2 →
      containsKey d1 k = true → containsKey d2 k = true → ∀ i, k ∉ uniqueKeysAt ds i) := by
  have hmem_into : ∀ (d : Dataset) (k : CanonicalKey),
      containsKey d k = true ↔ k ∈ keysOf d := by
    intro d k
    simp [containsKey]
  have hcommon : ∀ k ∈ commonKeys ds, ∀ d ∈ ds, containsKey d k = true := by
    intro k hk d hd
    cases ds with
    | nil => cases hd
    | cons d0 rest =>
      simp only [commonKeys] at hk
      obtain ⟨hk0, hall⟩ := List.mem_filter.mp hk
      rcases List.mem_cons.mp hd with rfl | hd
      · exact (hmem_into d k).mpr (List.mem_dedup.mp hk0)
      · exact List.all_eq_true.mp hall d hd
  have huniq : ∀ i, ∀ k ∈ uniqueKeysAt ds i, ∀ j, j ≠ i → ∀ dj, ds[j]? = some dj →
      containsKey dj k = false := by
    intro i k hk j hne dj hj
    cases hdi : ds[i]? with
    | none =>
      simp only [uniqueKeysAt, hdi] at hk
      cases hk
    | some di =>
      simp only [uniqueKeysAt, hdi] at hk
      obtain ⟨hkd, hall⟩ := List.mem_filter.mp hk
      have hmem : (j, dj) ∈ ds.enum := List.mem_enum_iff_getElem?.mpr (by simpa using hj)
      have hor := List.all_eq_true.mp hall (j, dj) hmem
      simp only [Bool.or_eq_true, decide_eq_true_eq, Bool.not_eq_true'] at hor
      rcases hor with h | h
      · exact absurd h hne
      · exact h
  have hdju : ∀ j, ∀ k ∈ uniqueKeysAt ds j, ∃ dj, ds[j]? = some dj ∧
      containsKey dj k = true := by
    intro j k hk
    cases hdj : ds[j]? with
    | none =>
      simp only [uniqueKeysAt, hdj] at hk
      cases hk
    | some dj =>
      simp only [uniqueKeysAt, hdj] at hk
      exact ⟨dj, rfl, (hmem_into dj k).mpr (List.mem_dedup.mp (List.mem_filter.mp hk).1)⟩
  refine ⟨hcommon, huniq, ?_, ?_, ?_⟩
  · intro i j hne k hki hkj
    obtain ⟨dj, hdj, hcj⟩ := hdju j k hkj
    have hfalse := huniq i k hki j (Ne.symm hne) dj hdj
    rw [hfalse] at hcj
    cases hcj
  · rintro k ⟨j, dj, hj, hfalse⟩ hkc
    obtain ⟨hlt, heq⟩ := List.getElem?_eq_some_iff.mp hj
    have hdmem : dj ∈ ds := heq ▸ List.getElem_mem hlt
    have := hcommon k hkc dj hdmem
    rw [this] at hfalse
    cases hfalse
  · intro k i1 i2 d1 d2 hne h1 h2m hc1 hc2 i hk
    by_cases hi : i = i1
    · subst hi
      have hfalse := huniq i k hk i2 (Ne.symm hne) d2 h2m
      rw [hfalse] at hc2
      cases hc2
    · have hfalse := huniq i k hk i1 (Ne.symm hi) d1 h1
      rw [hfalse] at hc1
      cases hc1

/-- Concrete instantiation of C4, the spec section 8 example: the key k1
shared by datasets A and B is in both key sets. -/
theorem claim_c4_witness :
    containsKey ("B", [⟨⟨"p1", "F1", "t1"⟩, Severity.critical, 10, none, 1⟩,
        ⟨⟨"p3", "F3", "t3"⟩, Severity.minor, 30, none, 1⟩]) ⟨"p1", "F1", "t1"⟩ = true :=
  (claim_c4_common_unique_keys
      [("A", [⟨⟨"p1", "F1", "t1"⟩, Severity.critical, 10, none, 1⟩,
              ⟨⟨"p2", "F2", "t2"⟩, Severity.major, 20, none, 1⟩]),
       ("B", [⟨⟨"p1", "F1", "t1"⟩, Severity.critical, 10, none, 1⟩,
              ⟨⟨"p3", "F3", "t3"⟩, Severity.minor, 30, none, 1⟩])]
      (by decide)).1
    ⟨"p1", "F1", "t1"⟩ (by decide)
    ("B", [⟨⟨"p1", "F1", "t1"⟩, Severity.critical, 10, none, 1⟩,
           ⟨⟨"p3", "F3", "t3"⟩, Severity.minor, 30, none, 1⟩]) (by decide)

/-- C5: summarization is deterministic under permutation of the input
record order — the ranked top-affected-objects list and the day-bucket
timeline are identical for permuted inputs — and the emitted orders are
the specified ones: ranking by count descending, then most recent
`raisedAt` descending, then path ascending; timeline buckets in ascending
date order. -/
theorem claim_c5_permutation_determinism (l1 l2 : List FaultInstance)
    (h : l1.Perm l2) :
    topAffectedObjects l1 = topAffectedObjects l2 ∧
    faultTimeline l1 = faultTimeline l2 ∧
    (∀ fid fname ts : String,
      (summarize fid fname ts l1).top_affected_objects =
        (summarize fid fname ts l2).top_affected_objects ∧
      (summarize fid fname ts l1).fault_timeline =
        (summarize fid fname ts l2).fault_timeline) ∧
    (topAffectedKeys l1).Pairwise (fun p q => topAffectedLe l1 p q = true) ∧
    (timelineDays l1).Pairwise (fun a b => a ≤ b) := by
  have hkeys : topAffectedKeys l1 = topAffectedKeys l2 := by
    unfold topAffectedKeys
    have hperm : ((l1.map pathOf).dedup).Perm ((l2.map pathOf).dedup) :=
      (List.Perm.map pathOf h).dedup
    rw [topAffectedLe_congr h]
    haveI : IsAntisymm String (fun p q => topAffectedLe l2 p q = true) :=
      ⟨topAffectedLe_antisymm l2⟩
    have hs1 : (((l1.map pathOf).dedup).mergeSort (topAffectedLe l2)).Pairwise
        (fun p q => topAffectedLe l2 p q = true) :=
      List.sorted_mergeSort (topAffectedLe_trans l2) (topAffectedLe_total l2) _
    have hs2 : (((l2.map pathOf).dedup).mergeSort (topAffectedLe l2)).Pairwise
        (fun p q => topAffectedLe l2 p q = true) :=
      List.sorted_mergeSort (topAffectedLe_trans l2) (topAffectedLe_total l2) _
    exact List.eq_of_perm_of_sorted
      (((List.mergeSort_perm _ _).trans hperm).trans (List.mergeSort_perm _ _).symm)
      hs1 hs2
  have htop : topAffectedObjects l1 = topAffectedObjects l2 := by
    unfold topAffectedObjects
    rw [hkeys]
    have hfun : (fun p => (⟨p, pathCount l1 p⟩ : TopAffectedEntry)) =
        (fun p => (⟨p, pathCount l2 p⟩ : TopAffectedEntry)) :=
      funext fun p => by rw [pathCount_perm h p]
    rw [hfun]
  have hdays : timelineDays l1 = timelineDays l2 := by
    unfold timelineDays
    have hperm : ((l1.map dayOf).dedup).Perm ((l2.map dayOf).dedup) :=
      (List.Perm.map dayOf h).dedup
    haveI : IsAntisymm Nat (fun a b => (decide (a ≤ b)) = true) := by
      refine ⟨?_⟩
      intro a b ha hb
      simp only [decide_eq_true_eq] at ha hb
      omega
    have hs1 : (((l1.map dayOf).dedup).mergeSort (fun a b => a ≤ b)).Pairwise
        (fun a b : Nat => (decide (a ≤ b)) = true) :=
      List.sorted_mergeSort
        (by intro a b c hab hbc; simp only [decide_eq_true_eq] at hab hbc ⊢; omega)
        (by intro a b; simp only [Bool.or_eq_true, decide_eq_true_eq]; omega)
        ((l1.map dayOf).dedup)
    have hs2 : (((l2.map dayOf).dedup).mergeSort (fun a b => a ≤ b)).Pairwise
        (fun a b : Nat => (decide (a ≤ b)) = true) :=
      List.sorted_mergeSort
        (by intro a b c hab hbc; simp only [decide_eq_true_eq] at hab hbc ⊢; omega)
        (by intro a b; simp only [Bool.or_eq_true, decide_eq_true_eq]; omega)
        ((l2.map dayOf).dedup)
    exact List.eq_of_perm_of_sorted
      (((List.mergeSort_perm _ _).trans hperm).trans (List.mergeSort_perm _ _).symm)
      hs1 hs2
  have hcp : ∀ p : FaultInstance → Bool, l1.countP p = l2.countP p :=
    fun p => List.Perm.countP_eq p h
  have hbucket : timelineBucket l1 = timelineBucket l2 := by
    funext d
    unfold timelineBucket
    simp only [hcp]
  have htime : faultTimeline l1 = faultTimeline l2 := by
    unfold faultTimeline
    rw [hdays, hbucket]
  refine ⟨htop, htime, fun fid fname ts => ⟨?_, ?_⟩, ?_, ?_⟩
  · simp only [summarize]
    exact htop
  · simp only [summarize]
    exact htime
  · unfold topAffectedKeys
    exact List.sorted_mergeSort (topAffectedLe_trans l1) (topAffectedLe_total l1) _
  · unfold timelineDays
    have hp : (((l1.map dayOf).dedup).mergeSort (fun a b => a ≤ b)).Pairwise
        (fun a b : Nat => (decide (a ≤ b)) = true) :=
      List.sorted_mergeSort
        (by intro a b c hab hbc; simp only [decide_eq_true_eq] at hab hbc ⊢; omega)
        (by intro a b; simp only [Bool.or_eq_true, decide_eq_true_eq]; omega)
        ((l1.map dayOf).dedup)
    exact hp.imp (by intro a b hab; simpa using hab)

/-- Concrete instantiation of C5: swapping two instances leaves the
ranked top-affected-objects output unchanged. -/
theorem claim_c5_witness :
    topAffectedObjects
        [⟨⟨"pA", "F1", "t"⟩, Severity.critical, 172800, none, 1⟩,
         ⟨⟨"pB", "F2", "t"⟩, Severity.major, 432000, some 518400, 1⟩] =
      topAffectedObjects
        [⟨⟨"pB", "F2", "t"⟩, Severity.major, 432000, some 518400, 1⟩,
         ⟨⟨"pA", "F1", "t"⟩, Severity.critical, 172800, none, 1⟩] := by
  exact (claim_c5_permutation_determinism
    [⟨⟨"pA", "F1", "t"⟩, Severity.critical, 172800, none, 1⟩,
     ⟨⟨"pB", "F2", "t"⟩, Severity.major, 432000, some 518400, 1⟩]
    [⟨⟨"pB", "F2", "t"⟩, Severity.major, 432000, some 518400, 1⟩,
     ⟨⟨"pA", "F1", "t"⟩, Severity.critical, 172800, none, 1⟩]
    (by decide)).1

end AciTool
